import Mathlib

/-!
Shallow embedding of the compound detection and validation engine of the
Bruker DART-MS analysis scripts (`plot_compounds_json.py` and
`02_Python_Analysis_Scripts/Plot_Compounds_Validation_Analysis.py`).

Mass-to-charge values and intensities are modelled as exact rationals;
numpy arrays become Lean lists, and the numpy/scipy primitives the scripts
rely on (`np.argmax`, `np.max`, boolean-mask windowing,
`scipy.signal.find_peaks`) are embedded as executable Lean functions
following the library semantics the scripts observe.
-/

namespace DartMS

/-- Safe list indexing with default 0; numpy indexing in the scripts is
only ever performed at in-range indices, which the lemmas below track. -/
def getQ (xs : List ℚ) (i : Nat) : ℚ := xs.getD i 0

@[simp] theorem getQ_nil (i : Nat) : getQ [] i = 0 := by
  simp [getQ]

@[simp] theorem getQ_cons_zero (x : ℚ) (xs : List ℚ) : getQ (x :: xs) 0 = x := by
  simp [getQ]

@[simp] theorem getQ_cons_succ (x : ℚ) (xs : List ℚ) (i : Nat) :
    getQ (x :: xs) (i + 1) = getQ xs i := by
  simp [getQ]

theorem getQ_mem (xs : List ℚ) (i : Nat) (h : i < xs.length) : getQ xs i ∈ xs := by
  induction xs generalizing i with
  | nil => simp at h
  | cons x xs ih =>
    cases i with
    | zero => simp
    | succ j =>
      have hj : j < xs.length := by simpa using h
      exact List.mem_cons_of_mem x (ih j hj)

/-- Index of the first occurrence of the maximal element, following the
semantics of `np.argmax` (first occurrence wins on ties). -/
def argmaxQ : List ℚ → Nat
  | [] => 0
  | [_] => 0
  | x :: y :: xs =>
    let j := argmaxQ (y :: xs)
    if getQ (y :: xs) j ≤ x then 0 else j + 1

/-- Value of the maximal element (`np.max`), expressed through `argmaxQ`. -/
def npMax (xs : List ℚ) : ℚ := getQ xs (argmaxQ xs)

theorem argmaxQ_lt_length (xs : List ℚ) (h : xs ≠ []) : argmaxQ xs < xs.length := by
  induction xs with
  | nil => exact absurd rfl h
  | cons x xs ih =>
    cases xs with
    | nil => simp [argmaxQ]
    | cons y ys =>
      by_cases hle : getQ (y :: ys) (argmaxQ (y :: ys)) ≤ x
      · simp [argmaxQ, hle]
      · have := ih (by simp)
        simp only [argmaxQ, hle, if_false, List.length_cons]
        simp only [List.length_cons] at this
        omega

theorem getQ_le_npMax (xs : List ℚ) (i : Nat) (h : i < xs.length) :
    getQ xs i ≤ npMax xs := by
  induction xs generalizing i with
  | nil => simp at h
  | cons x xs ih =>
    cases xs with
    | nil =>
      have : i = 0 := by simpa using Nat.lt_one_iff.mp (by simpa using h)
      simp [this, npMax, argmaxQ]
    | cons y ys =>
      by_cases hle : getQ (y :: ys) (argmaxQ (y :: ys)) ≤ x
      · have hnp : npMax (x :: y :: ys) = x := by
          simp [npMax, argmaxQ, hle]
        rw [hnp]
        cases i with
        | zero => simp
        | succ k =>
          have hk : k < (y :: ys).length := by simpa using h
          have := ih k hk
          simp only [getQ_cons_succ]
          exact le_trans this hle
      · have hnp : npMax (x :: y :: ys) = getQ (y :: ys) (argmaxQ (y :: ys)) := by
          simp [npMax, argmaxQ, hle]
        rw [hnp]
        cases i with
        | zero =>
          simp only [getQ_cons_zero]
          exact le_of_lt (lt_of_not_le hle)
        | succ k =>
          have hk : k < (y :: ys).length := by simpa using h
          simpa [npMax] using ih k hk

theorem mem_le_npMax (xs : List ℚ) (y : ℚ) (h : y ∈ xs) : y ≤ npMax xs := by
  obtain ⟨i, hi, rfl⟩ := List.mem_iff_get.mp h
  have := getQ_le_npMax xs i.1 i.2
  have hg : getQ xs i.1 = xs.get i := by
    simp [getQ, List.getD_eq_getElem?_getD, List.getElem?_eq_getElem i.2]
  rw [hg] at this
  exact this

theorem getQ_lt_of_lt_argmaxQ (xs : List ℚ) (k : Nat) (h : k < argmaxQ xs) :
    getQ xs k < npMax xs := by
  induction xs generalizing k with
  | nil => simp [argmaxQ] at h
  | cons x xs ih =>
    cases xs with
    | nil => simp [argmaxQ] at h
    | cons y ys =>
      by_cases hle : getQ (y :: ys) (argmaxQ (y :: ys)) ≤ x
      · simp [argmaxQ, hle] at h
      · have hnp : npMax (x :: y :: ys) = getQ (y :: ys) (argmaxQ (y :: ys)) := by
          simp [npMax, argmaxQ, hle]
        rw [hnp]
        have hk : k < argmaxQ (y :: ys) + 1 := by
          simpa [argmaxQ, hle] using h
        cases k with
        | zero =>
          simpa using lt_of_not_le hle
        | succ m =>
          have hm : m < argmaxQ (y :: ys) := by omega
          have := ih m hm
          simpa [npMax] using this

theorem npMax_mem (xs : List ℚ) (h : xs ≠ []) : npMax xs ∈ xs :=
  getQ_mem xs (argmaxQ xs) (argmaxQ_lt_length xs h)

/-! String utilities mirroring the Python substring tests and
`int(...)` parsing used by the scripts, over `List Char`. -/

/-- Whether the character list starts with the given pattern. -/
def startsWithCL : List Char → List Char → Bool
  | _, [] => true
  | [], _ :: _ => false
  | c :: cs, p :: ps => c == p && startsWithCL cs ps

/-- Python substring membership `pat in s` over character lists. -/
def containsCL : List Char → List Char → Bool
  | [], pat => pat.isEmpty
  | c :: cs, pat => startsWithCL (c :: cs) pat || containsCL cs pat

/-- The suffix following the last occurrence of the pattern, mirroring
`s.split(pat)[-1]` when the pattern occurs in `s`. -/
def lastAfterCL : List Char → List Char → Option (List Char)
  | [], _ => none
  | c :: cs, pat =>
    match lastAfterCL cs pat with
    | some r => some r
    | none =>
      if startsWithCL (c :: cs) pat then some ((c :: cs).drop pat.length) else none

/-- Python `str.isdigit` for ASCII digit strings: non-empty, all digits. -/
def isDigitsCL (cs : List Char) : Bool := !cs.isEmpty && cs.all Char.isDigit

/-- Numeric value of a digit string. -/
def natOfDigits (cs : List Char) : Nat :=
  cs.foldl (fun a c => a * 10 + (c.toNat - 48)) 0

/-- Strip leading and trailing whitespace. -/
def trimCL (cs : List Char) : List Char :=
  ((cs.dropWhile Char.isWhitespace).reverse.dropWhile Char.isWhitespace).reverse

/-- Python `int(s)` on a string: optional surrounding whitespace, optional
sign, then a non-empty run of digits; any other shape raises (here: none). -/
def pyParseIntCL (cs : List Char) : Option Int :=
  match trimCL cs with
  | '-' :: rest => if isDigitsCL rest then some (-(natOfDigits rest : Int)) else none
  | '+' :: rest => if isDigitsCL rest then some ((natOfDigits rest : Int)) else none
  | t => if isDigitsCL t then some ((natOfDigits t : Int)) else none

/-- Python substring membership for strings. -/
def strContains (s pat : String) : Bool := containsCL s.data pat.data

/-- The string constant used to carve scan numbers out of spectrum IDs. -/
def scanEqStr : String := "scan="

/-- pymzml spectrum IDs are either integers or strings. -/
inductive ScanId where
  | int (n : Int)
  | str (s : String)
deriving DecidableEq

/-- Embeds `extract_scan_number` of `plot_compounds_json.py`: an integer ID
is returned as is; a string containing the marker yields the integer after
its last occurrence (0 when that suffix does not parse); a pure digit
string parses directly; everything else yields 0. -/
def extract_scan_number (scan_id : ScanId) : Int :=
  match scan_id with
  | .int n => n
  | .str s =>
    if containsCL s.data scanEqStr.data then
      match lastAfterCL s.data scanEqStr.data with
      | some r =>
        match pyParseIntCL r with
        | some n => n
        | none => 0
      | none => 0
    else if isDigitsCL s.data then (natOfDigits s.data : Int)
    else 0

/-! Windowing: the boolean-mask restriction
`(mz_array >= t - tol) & (mz_array <= t + tol)` applied to the parallel
m/z and intensity arrays. -/

/-- The (m/z, intensity) pairs whose m/z lies in the closed tolerance
window around the target. -/
def windowRegion (mzs ints : List ℚ) (target tol : ℚ) : List (ℚ × ℚ) :=
  (mzs.zip ints).filter
    (fun p => decide (target - tol ≤ p.1) && decide (p.1 ≤ target + tol))

theorem windowRegion_mz_bounds (mzs ints : List ℚ) (target tol : ℚ) (p : ℚ × ℚ)
    (h : p ∈ windowRegion mzs ints target tol) :
    target - tol ≤ p.1 ∧ p.1 ≤ target + tol := by
  have := (List.mem_filter.mp h).2
  simp only [Bool.and_eq_true, decide_eq_true_eq] at this
  exact this

theorem windowRegion_fst_mem (mzs ints : List ℚ) (target tol : ℚ) (p : ℚ × ℚ)
    (h : p ∈ windowRegion mzs ints target tol) : p.1 ∈ mzs := by
  have hz := (List.mem_filter.mp h).1
  exact (List.of_mem_zip hz).1

theorem windowRegion_eq_nil (mzs ints : List ℚ) (target tol : ℚ)
    (h : ∀ x ∈ mzs, x < target - tol ∨ target + tol < x) :
    windowRegion mzs ints target tol = [] := by
  apply List.filter_eq_nil_iff.mpr
  intro p hp
  have hx := (List.of_mem_zip hp).1
  rcases h p.1 hx with hlt | hgt
  · simp only [Bool.and_eq_true, decide_eq_true_eq, not_and]
    intro hle
    exact absurd hle (not_le.mpr hlt)
  · simp only [Bool.and_eq_true, decide_eq_true_eq, not_and]
    intro _
    exact not_le.mpr hgt

/-! Embedding of `scipy.signal.find_peaks` for the argument combinations
the scripts use (`height`, `distance`, `prominence`), following the
library's `_local_maxima_1d`, `_select_by_peak_distance` and
`_peak_prominences` routines. -/

/-- Scan past a plateau: the first index `j ≥` the start with a value
different from the candidate peak value, stopping at `imax`. -/
def plateauEnd (x : List ℚ) (xi : ℚ) (imax : Nat) : Nat → Nat → Nat
  | j, 0 => j
  | j, fuel + 1 =>
    if j < imax ∧ getQ x j = xi then plateauEnd x xi imax (j + 1) fuel else j

/-- Midpoints of strict local maxima (plateaus allowed), as in
`_local_maxima_1d`: interior samples rising from the left and falling
after the (possibly flat) top. -/
def localMaximaAux (x : List ℚ) (imax : Nat) : Nat → Nat → List Nat
  | _, 0 => []
  | i, fuel + 1 =>
    if i < imax then
      if getQ x (i - 1) < getQ x i then
        let iAhead := plateauEnd x (getQ x i) imax (i + 1) (x.length + 1)
        if getQ x iAhead < getQ x i then
          ((i + (iAhead - 1)) / 2) :: localMaximaAux x imax (iAhead + 1) fuel
        else localMaximaAux x imax (i + 1) fuel
      else localMaximaAux x imax (i + 1) fuel
    else []

/-- All interior local maxima of the signal. -/
def localMaxima (x : List ℚ) : List Nat :=
  localMaximaAux x (x.length - 1) 1 (x.length + 1)

/-- Stable insertion (by key, ascending) used to realise `np.argsort`. -/
def insertIdxByKey (key : Nat → ℚ) (i : Nat) : List Nat → List Nat
  | [] => [i]
  | j :: rest => if key j ≤ key i then j :: insertIdxByKey key i rest else i :: j :: rest

/-- Indices `0..n-1` sorted by value, ascending and stable. -/
def argsortQ (vals : List ℚ) : List Nat :=
  (List.range vals.length).foldl (fun acc i => insertIdxByKey (getQ vals) i acc) []

/-- Mark as removed the peaks left of position `j` that are closer than
`dist`; the countdown argument encodes the next index to examine plus 1. -/
def markLeft (peaks : List Nat) (pj dist : Nat) : Nat → List Bool → List Bool
  | 0, keep => keep
  | c + 1, keep =>
    if pj - peaks.getD c 0 < dist then markLeft peaks pj dist c (keep.set c false)
    else keep

/-- Mark as removed the peaks right of position `j` that are closer than
`dist`. -/
def markRight (peaks : List Nat) (pj dist : Nat) : Nat → Nat → List Bool → List Bool
  | _, 0, keep => keep
  | k, fuel + 1, keep =>
    if k < peaks.length ∧ peaks.getD k 0 - pj < dist then
      markRight peaks pj dist (k + 1) fuel (keep.set k false)
    else keep

/-- `_select_by_peak_distance`: walking peaks from highest to lowest
priority, evict not-yet-removed neighbours closer than the distance. -/
def selectByPeakDistance (peaks : List Nat) (x : List ℚ) (dist : Nat) : List Bool :=
  let priority := peaks.map (getQ x)
  let order := (argsortQ priority).reverse
  order.foldl
    (fun keep j =>
      if keep.getD j true = false then keep
      else
        markRight peaks (peaks.getD j 0) dist (j + 1) peaks.length
          (markLeft peaks (peaks.getD j 0) dist j keep))
    (List.replicate peaks.length true)

/-- Positional selection `peaks[keep]`. -/
def applyKeep : List Nat → List Bool → List Nat
  | [], _ => []
  | _ :: _, [] => []
  | p :: ps, b :: bs => if b then p :: applyKeep ps bs else applyKeep ps bs

/-- Minimum over the leftward excursion of `_peak_prominences`. -/
def promLeft (x : List ℚ) (xp : ℚ) : Nat → ℚ → ℚ
  | 0, m => m
  | i + 1, m => if getQ x (i + 1) ≤ xp then promLeft x xp i (min m (getQ x i)) else m

/-- Minimum over the rightward excursion of `_peak_prominences`. -/
def promRight (x : List ℚ) (xp : ℚ) (imax : Nat) : Nat → ℚ → Nat → ℚ
  | _, m, 0 => m
  | i, m, fuel + 1 =>
    if i < imax ∧ getQ x i ≤ xp then
      promRight x xp imax (i + 1) (min m (getQ x (i + 1))) fuel
    else m

/-- Prominence of a peak: its height above the higher of the two base
minima. -/
def peakProminence (x : List ℚ) (p : Nat) : ℚ :=
  let xp := getQ x p
  let lm := promLeft x xp p xp
  let rm := promRight x xp (x.length - 1) p xp x.length
  xp - max lm rm

/-- `scipy.signal.find_peaks` restricted to the keyword arguments the
scripts pass; filters are applied in the library's order:
local maxima, then height, then distance, then prominence. -/
def find_peaks (x : List ℚ) (height : Option ℚ) (distance : Option Nat)
    (prom : Option ℚ) : List Nat :=
  let peaks := localMaxima x
  let peaks :=
    match height with
    | some h => peaks.filter (fun p => decide (h ≤ getQ x p))
    | none => peaks
  let peaks :=
    match distance with
    | some d => applyKeep peaks (selectByPeakDistance peaks x d)
    | none => peaks
  match prom with
  | some pm => peaks.filter (fun p => decide (pm ≤ peakProminence x p))
  | none => peaks

theorem plateauEnd_le (x : List ℚ) (xi : ℚ) (imax : Nat) :
    ∀ fuel j, j ≤ imax → plateauEnd x xi imax j fuel ≤ imax := by
  intro fuel
  induction fuel with
  | zero => intro j hj; simpa [plateauEnd] using hj
  | succ n ih =>
    intro j hj
    by_cases hc : j < imax ∧ getQ x j = xi
    · simp only [plateauEnd, hc, if_true]
      exact ih (j + 1) hc.1
    · simpa [plateauEnd, hc] using hj

theorem localMaximaAux_mem_lt (x : List ℚ) (imax : Nat) :
    ∀ fuel i p, p ∈ localMaximaAux x imax i fuel → p < imax := by
  intro fuel
  induction fuel with
  | zero => intro i p hp; simp [localMaximaAux] at hp
  | succ n ih =>
    intro i p hp
    by_cases hi : i < imax
    · by_cases hrise : getQ x (i - 1) < getQ x i
      · set iAhead := plateauEnd x (getQ x i) imax (i + 1) (x.length + 1) with hA
        have hAle : iAhead ≤ imax := plateauEnd_le x (getQ x i) imax (x.length + 1) (i + 1) hi
        by_cases hfall : getQ x iAhead < getQ x i
        · simp only [localMaximaAux, hi, hrise, hfall, if_true, ← hA] at hp
          rcases List.mem_cons.mp hp with hmid | hrec
          · subst hmid; omega
          · exact ih (iAhead + 1) p hrec
        · simp only [localMaximaAux, hi, hrise, hfall, if_true, if_false, ← hA] at hp
          exact ih (i + 1) p hp
      · simp only [localMaximaAux, hi, hrise, if_true, if_false] at hp
        exact ih (i + 1) p hp
    · simp [localMaximaAux, hi] at hp

theorem localMaxima_mem_lt (x : List ℚ) (p : Nat) (hp : p ∈ localMaxima x) :
    p < x.length := by
  have := localMaximaAux_mem_lt x (x.length - 1) (x.length + 1) 1 p hp
  omega

theorem applyKeep_subset (ps : List Nat) (bs : List Bool) (p : Nat)
    (hp : p ∈ applyKeep ps bs) : p ∈ ps := by
  induction ps generalizing bs with
  | nil => simp [applyKeep] at hp
  | cons q qs ih =>
    cases bs with
    | nil => simp [applyKeep] at hp
    | cons b bs =>
      by_cases hb : b = true
      · subst hb
        simp only [applyKeep, if_true] at hp
        rcases List.mem_cons.mp hp with h | h
        · exact h ▸ List.mem_cons_self q qs
        · exact List.mem_cons_of_mem q (ih bs h)
      · have hb2 : b = false := by simpa using hb
        subst hb2
        simp only [applyKeep, Bool.false_eq_true, if_false] at hp
        exact List.mem_cons_of_mem q (ih bs hp)

theorem find_peaks_subset_localMaxima (x : List ℚ) (height : Option ℚ)
    (distance : Option Nat) (prom : Option ℚ) (p : Nat)
    (hp : p ∈ find_peaks x height distance prom) : p ∈ localMaxima x := by
  unfold find_peaks at hp
  have step1 :
      ∀ q ∈ (match height with
        | some h => (localMaxima x).filter (fun r => decide (h ≤ getQ x r))
        | none => localMaxima x), q ∈ localMaxima x := by
    intro q hq
    cases height with
    | none => exact hq
    | some h => exact (List.mem_filter.mp hq).1
  cases prom with
  | none =>
    cases distance with
    | none => exact step1 p hp
    | some d => exact step1 p (applyKeep_subset _ _ p hp)
  | some pm =>
    have hp2 := (List.mem_filter.mp hp).1
    cases distance with
    | none => exact step1 p hp2
    | some d => exact step1 p (applyKeep_subset _ _ p hp2)

theorem find_peaks_mem_lt (x : List ℚ) (height : Option ℚ) (distance : Option Nat)
    (prom : Option ℚ) (p : Nat) (hp : p ∈ find_peaks x height distance prom) :
    p < x.length :=
  localMaxima_mem_lt x p (find_peaks_subset_localMaxima x height distance prom p hp)

theorem find_peaks_height (x : List ℚ) (h : ℚ) (distance : Option Nat)
    (prom : Option ℚ) (p : Nat) (hp : p ∈ find_peaks x (some h) distance prom) :
    h ≤ getQ x p := by
  unfold find_peaks at hp
  have key : ∀ q ∈ (localMaxima x).filter (fun r => decide (h ≤ getQ x r)),
      h ≤ getQ x q := by
    intro q hq
    have := (List.mem_filter.mp hq).2
    simpa using this
  cases prom with
  | none =>
    cases distance with
    | none => exact key p hp
    | some d => exact key p (applyKeep_subset _ _ p hp)
  | some pm =>
    have hp2 := (List.mem_filter.mp hp).1
    cases distance with
    | none => exact key p hp2
    | some d => exact key p (applyKeep_subset _ _ p hp2)

theorem getD_mem_of_lt {α : Type} (l : List α) (d : α) (i : Nat) (h : i < l.length) :
    l.getD i d ∈ l := by
  induction l generalizing i with
  | nil => simp at h
  | cons a l ih =>
    cases i with
    | zero => simp
    | succ j =>
      have hj : j < l.length := by simpa using h
      simpa using Or.inr (ih j hj)

theorem getD_map_of_lt {α β : Type} (f : α → β) (l : List α) (i : Nat)
    (h : i < l.length) (d : β) (e : α) : (l.map f).getD i d = f (l.getD i e) := by
  induction l generalizing i with
  | nil => simp at h
  | cons a l ih =>
    cases i with
    | zero => simp
    | succ j =>
      have hj : j < l.length := by simpa using h
      simpa using ih j hj

/-- The highest of a list of candidate peak indices:
`peak_indices[np.argmax(x[peak_indices])]`. -/
def bestOf (x : List ℚ) (idxs : List Nat) : Nat :=
  idxs.getD (argmaxQ (idxs.map (getQ x))) 0

theorem bestOf_mem (x : List ℚ) (idxs : List Nat) (h : idxs ≠ []) :
    bestOf x idxs ∈ idxs := by
  have hlt : argmaxQ (idxs.map (getQ x)) < idxs.length := by
    have := argmaxQ_lt_length (idxs.map (getQ x)) (by simpa using h)
    simpa using this
  exact getD_mem_of_lt idxs 0 _ hlt

/-! The plot-time peak locator
(`PeakDetector.find_true_peak_maximum` in
`Plot_Compounds_Validation_Analysis.py`). -/

/-- Result of the plot-time locator: peak position, height, and whether
the constrained local-maxima search (true-peak mode) produced it. -/
structure CorrectedPeak where
  mz : ℚ
  intensity : ℚ
  corrected : Bool
deriving DecidableEq

/-- The constrained local-maxima search of the plot-time locator:
height at 10% of the window maximum, separation 3 samples, prominence at
5% of the window maximum. -/
def truePeakIndices (region_intensity : List ℚ) : List Nat :=
  find_peaks region_intensity (some (npMax region_intensity * (1 / 10))) (some 3)
    (some (npMax region_intensity * (1 / 20)))

/-- Embeds `find_true_peak_maximum`: window the arrays around the target;
in windows of more than 3 samples run the constrained local-maxima search
and return the highest accepted maximum (corrected); otherwise, or when no
maxima survive the constraints, return the plain window maximum
(uncorrected). Empty window: absent. -/
def find_true_peak_maximum (mz_array intensity_array : List ℚ)
    (target_mz tolerance : ℚ) : Option CorrectedPeak :=
  let region := windowRegion mz_array intensity_array target_mz tolerance
  if region = [] then none
  else
    let region_mz := region.map Prod.fst
    let region_intensity := region.map Prod.snd
    if 3 < region_intensity.length ∧ truePeakIndices region_intensity ≠ [] then
      let best := bestOf region_intensity (truePeakIndices region_intensity)
      some { mz := getQ region_mz best, intensity := getQ region_intensity best,
             corrected := true }
    else
      let mi := argmaxQ region_intensity
      some { mz := getQ region_mz mi, intensity := getQ region_intensity mi,
             corrected := false }

/-! The sweep-time detector and validator
(`CompoundDetector` in `plot_compounds_json.py`). -/

/-- Name fragment identifying the TOPSe compound class. -/
def sTOPSe : String := "TOPSe"

/-- Name fragment identifying the TOP compound class. -/
def sTOP : String := "TOP"

/-- Name fragment identifying the oleic acid compound class. -/
def sOleic : String := "Oleic"

/-- Formula fragment identifying TOPSe. -/
def fTOPSe : String := "C24H52PSe"

/-- Formula fragment identifying oleic acid. -/
def fOleic : String := "C18H35O2"

/-- Per-compound configuration, as assembled by `ReferenceDataManager`
from `DETECTION_CONFIG` and the reference file entry. -/
structure CompoundConfig where
  formula : String
  compound_name : String
  target_mz : ℚ
  mz_tolerance : ℚ
  min_intensity_threshold : ℚ
  min_isotope_matches : Nat
  intensity_tolerance : ℚ
  mz_tolerance_validation : ℚ
deriving DecidableEq

/-- The absolute intensity floor applied inside
`detect_compound_in_spectrum`: derived from the display name only
(TOPSe 2000, TOP-but-not-TOPSe 2000, Oleic 1000, otherwise the configured
threshold). -/
def detectMinIntensity (cfg : CompoundConfig) : ℚ :=
  if strContains cfg.compound_name sTOPSe then 2000
  else if strContains cfg.compound_name sTOP && !strContains cfg.compound_name sTOPSe
    then 2000
  else if strContains cfg.compound_name sOleic then 1000
  else cfg.min_intensity_threshold

/-- Absolute mass error in parts per million relative to a target. -/
def ppmError (observed target : ℚ) : ℚ :=
  |observed - target| / target * 1000000

/-- A candidate produced by the sweep-time locator. -/
structure DetectionResult where
  mz : ℚ
  intensity : ℚ
  mz_error_ppm : ℚ
  region_peaks : Nat
  target_mz : ℚ
deriving DecidableEq

/-- Embeds `detect_compound_in_spectrum`: window the spectrum around the
target, reject an empty window, reject a window whose maximum intensity
is below the compound's absolute floor, then (for windows of more than 3
samples) prefer the highest local maximum found with height at the floor
and unit separation, falling back to the plain window maximum. -/
def detect_compound_in_spectrum (mz_array intensity_array : List ℚ)
    (cfg : CompoundConfig) : Option DetectionResult :=
  let min_intensity := detectMinIntensity cfg
  let region := windowRegion mz_array intensity_array cfg.target_mz cfg.mz_tolerance
  if region = [] then none
  else
    let region_mz := region.map Prod.fst
    let region_intensity := region.map Prod.snd
    let max_idx := argmaxQ region_intensity
    let max_intensity := getQ region_intensity max_idx
    let max_mz := getQ region_mz max_idx
    if max_intensity < min_intensity then none
    else
      let best :=
        if 3 < region_intensity.length ∧
            find_peaks region_intensity (some min_intensity) (some 1) none ≠ [] then
          let b := bestOf region_intensity
            (find_peaks region_intensity (some min_intensity) (some 1) none)
          (getQ region_mz b, getQ region_intensity b)
        else (max_mz, max_intensity)
      some { mz := best.1, intensity := best.2,
             mz_error_ppm := ppmError best.1 cfg.target_mz,
             region_peaks := region_intensity.length,
             target_mz := cfg.target_mz }

/-- A loaded reference isotope pattern: parallel m/z and intensity
arrays plus identifying metadata. -/
structure ReferenceData where
  mz : List ℚ
  intensity : List ℚ
  compound_name : String
  exact_mass : ℚ
deriving DecidableEq

/-- The storage rule of `ReferenceDataManager._load_all_references`: a
formula's pattern is entered into the store only when its parsed peak
list is non-empty, so a zero-peak pattern is indistinguishable from an
absent one downstream. -/
def loadReference (mz intensity : List ℚ) (name : String) (em : ℚ) :
    Option ReferenceData :=
  if 0 < mz.length then
    some { mz := mz, intensity := intensity, compound_name := name, exact_mass := em }
  else none

/-- Outcome record built by `validate_against_reference`. -/
structure ValidationResult where
  is_valid : Bool
  match_count : Nat
  required_matches : Nat
  validation_score : ℚ
  main_peak_intensity : ℚ
  mass_error_ppm : ℚ
  mass_accuracy_ok : Bool
  main_peak_match : Bool
deriving DecidableEq

/-- The validator's main-peak walk over the reference pattern, paired as
(reference m/z, normalized intensity): skip peaks below 1% of the
maximum; at the first remaining peak whose shifted position is within the
validation tolerance of the candidate, record a main-peak match exactly
when that peak itself carries at least 50% normalized intensity, and stop
(the loop breaks whether or not the 50% test succeeded). Returns the
match flag and the match count. -/
def mainPeakLoop (main_mz mz_shift tol : ℚ) : List (ℚ × ℚ) → Bool × Nat
  | [] => (false, 0)
  | (rmz, rint) :: rest =>
    if (1 / 100 : ℚ) ≤ rint then
      if |main_mz - (rmz + mz_shift)| ≤ tol then
        if (1 / 2 : ℚ) ≤ rint then (true, 1) else (false, 0)
      else mainPeakLoop main_mz mz_shift tol rest
    else mainPeakLoop main_mz mz_shift tol rest

/-- The absolute intensity floor applied inside
`validate_against_reference`: unlike the locator's floor it also matches
the formula string (TOPSe by name or formula 2000, TOP-but-not-TOPSe by
name 2000, Oleic by name or formula 1000, default 1000). -/
def validateMinIntensity (cfg : CompoundConfig) : ℚ :=
  if strContains cfg.compound_name sTOPSe || strContains cfg.formula fTOPSe then 2000
  else if strContains cfg.compound_name sTOP && !strContains cfg.compound_name sTOPSe
    then 2000
  else if strContains cfg.compound_name sOleic || strContains cfg.formula fOleic
    then 1000
  else 1000

/-- Embeds `validate_against_reference`: an absent reference pattern is
immediately invalid; otherwise normalize the pattern, shift it onto the
candidate via the pattern's main peak, run the main-peak walk for the
confidence score, and accept exactly when the candidate's intensity
reaches the compound-class floor and its mass error relative to the
configured target is strictly below 300 ppm. -/
def validate_against_reference (detection : DetectionResult) (cfg : CompoundConfig)
    (reference : Option ReferenceData) : Bool × Option ValidationResult :=
  match reference with
  | none => (false, none)
  | some ref =>
    let ref_mz := ref.mz
    let ref_intensity_norm := ref.intensity.map (fun y => y / npMax ref.intensity)
    let main_mz := detection.mz
    let main_intensity := detection.intensity
    let theoretical_main_mz := getQ ref_mz (argmaxQ ref_intensity_norm)
    let mz_shift := main_mz - theoretical_main_mz
    let mp := mainPeakLoop main_mz mz_shift cfg.mz_tolerance_validation
      (ref_mz.zip ref_intensity_norm)
    let mass_error_ppm := ppmError main_mz cfg.target_mz
    let mass_accuracy_ok := decide (mass_error_ppm < 300)
    let is_valid := decide (validateMinIntensity cfg ≤ main_intensity) && mass_accuracy_ok
    (is_valid,
      some { is_valid := is_valid
             match_count := mp.2
             required_matches := cfg.min_isotope_matches
             validation_score := if mp.1 then 1 else (1 / 2)
             main_peak_intensity := main_intensity
             mass_error_ppm := mass_error_ppm
             mass_accuracy_ok := mass_accuracy_ok
             main_peak_match := mp.1 })

/-! The scan sweeper
(`SpectrumAnalyzer.analyze_sample_for_compounds` in
`plot_compounds_json.py`), modelled for a single compound over an
in-memory spectrum sequence. -/

/-- A raw spectrum as delivered by the reader: identifier, MS level,
retention time (extraction of which is an I/O concern, carried here as
data) and the parallel peak arrays. -/
structure SpectrumRec where
  id : ScanId
  ms_level : Nat
  rt : ℚ
  mz_array : List ℚ
  intensity_array : List ℚ
deriving DecidableEq

/-- An MS1 spectrum admitted to the sweep, keyed by its extracted scan
number. -/
structure MS1Spectrum where
  scan : Int
  rt : ℚ
  mz_array : List ℚ
  intensity_array : List ℚ
deriving DecidableEq

/-- The sweep's spectrum collection loop: keep MS-level-1 spectra whose
extracted scan number is strictly positive; everything else is silently
dropped. -/
def collectMS1 (specs : List SpectrumRec) : List MS1Spectrum :=
  specs.filterMap (fun sp =>
    if sp.ms_level = 1 ∧ 0 < extract_scan_number sp.id then
      some { scan := extract_scan_number sp.id, rt := sp.rt,
             mz_array := sp.mz_array, intensity_array := sp.intensity_array }
    else none)

/-- A validated detection as accumulated by the sweep: the candidate, its
originating scan and retention time, and the validation record. -/
structure AcceptedDetection where
  det : DetectionResult
  scan : Int
  rt : ℚ
  validation : ValidationResult
deriving DecidableEq

/-- The per-compound accumulation loop of the sweep: locate a candidate
in each spectrum, validate it, and keep exactly those spectra's
detections for which the validator accepted. -/
def sweepDetections (spectra : List MS1Spectrum) (cfg : CompoundConfig)
    (reference : Option ReferenceData) : List AcceptedDetection :=
  spectra.filterMap (fun sp =>
    match detect_compound_in_spectrum sp.mz_array sp.intensity_array cfg with
    | none => none
    | some detection =>
      match validate_against_reference detection cfg reference with
      | (true, some v) =>
        some { det := detection, scan := sp.scan, rt := sp.rt, validation := v }
      | _ => none)

/-- The per-compound entry of a SampleResult. -/
structure CompoundResult where
  optimal_detection : AcceptedDetection
  all_detections : List AcceptedDetection
  detection_count : Nat
deriving DecidableEq

/-- Embeds the per-compound tail of `analyze_sample_for_compounds`:
collect the admissible spectra, accumulate the validated detections, and
report the first detection of maximal intensity together with the full
accumulator and its length; an empty accumulator means the compound is
absent for this sample. -/
def analyze_sample_for_compound (specs : List SpectrumRec) (cfg : CompoundConfig)
    (reference : Option ReferenceData) : Option CompoundResult :=
  let all := sweepDetections (collectMS1 specs) cfg reference
  match all with
  | [] => none
  | d :: _ =>
    some { optimal_detection := all.getD (argmaxQ (all.map (fun a => a.det.intensity))) d
           all_detections := all
           detection_count := all.length }

theorem getD_eq_get {α : Type} (l : List α) (d : α) (i : Nat) (h : i < l.length) :
    l.getD i d = l.get ⟨i, h⟩ := by
  induction l generalizing i with
  | nil => simp at h
  | cons a l ih =>
    cases i with
    | zero => simp
    | succ j =>
      have hj : j < l.length := by simpa using h
      simpa using ih j hj

theorem find_true_peak_mem (mzs ints : List ℚ) (t w : ℚ) (r : CorrectedPeak)
    (h : find_true_peak_maximum mzs ints t w = some r) :
    r.mz ∈ (windowRegion mzs ints t w).map Prod.fst := by
  simp only [find_true_peak_maximum] at h
  split at h
  · cases h
  · next hre =>
    split at h
    · next hc =>
      have hr := Option.some_inj.mp h
      have hbest : bestOf ((windowRegion mzs ints t w).map Prod.snd)
          (truePeakIndices ((windowRegion mzs ints t w).map Prod.snd)) ∈
          truePeakIndices ((windowRegion mzs ints t w).map Prod.snd) :=
        bestOf_mem _ _ hc.2
      have hlt : bestOf ((windowRegion mzs ints t w).map Prod.snd)
          (truePeakIndices ((windowRegion mzs ints t w).map Prod.snd)) <
          ((windowRegion mzs ints t w).map Prod.snd).length :=
        find_peaks_mem_lt ((windowRegion mzs ints t w).map Prod.snd) _ _ _ _ hbest
      have hlt2 : bestOf ((windowRegion mzs ints t w).map Prod.snd)
          (truePeakIndices ((windowRegion mzs ints t w).map Prod.snd)) <
          ((windowRegion mzs ints t w).map Prod.fst).length := by
        simpa using (by simpa using hlt : _)
      rw [← hr]
      exact getQ_mem _ _ hlt2
    · next hc =>
      have hr := Option.some_inj.mp h
      have hne : (windowRegion mzs ints t w).map Prod.snd ≠ [] := by
        simpa using hre
      have hlt : argmaxQ ((windowRegion mzs ints t w).map Prod.snd) <
          ((windowRegion mzs ints t w).map Prod.snd).length :=
        argmaxQ_lt_length _ hne
      have hlt2 : argmaxQ ((windowRegion mzs ints t w).map Prod.snd) <
          ((windowRegion mzs ints t w).map Prod.fst).length := by
        simpa using (by simpa using hlt : _)
      rw [← hr]
      exact getQ_mem _ _ hlt2

theorem detect_mem (mzs ints : List ℚ) (cfg : CompoundConfig) (d : DetectionResult)
    (h : detect_compound_in_spectrum mzs ints cfg = some d) :
    d.mz ∈ (windowRegion mzs ints cfg.target_mz cfg.mz_tolerance).map Prod.fst := by
  simp only [detect_compound_in_spectrum] at h
  split at h
  · cases h
  · next hre =>
    split at h
    · cases h
    · next hfloor =>
      have hr := Option.some_inj.mp h
      rw [← hr]
      split
      · next hc =>
        have hbest := bestOf_mem ((windowRegion mzs ints cfg.target_mz cfg.mz_tolerance).map Prod.snd)
          (find_peaks ((windowRegion mzs ints cfg.target_mz cfg.mz_tolerance).map Prod.snd)
            (some (detectMinIntensity cfg)) (some 1) none) hc.2
        have hlt := find_peaks_mem_lt _ _ _ _ _ hbest
        have hlt2 : bestOf ((windowRegion mzs ints cfg.target_mz cfg.mz_tolerance).map Prod.snd)
            (find_peaks ((windowRegion mzs ints cfg.target_mz cfg.mz_tolerance).map Prod.snd)
              (some (detectMinIntensity cfg)) (some 1) none) <
            ((windowRegion mzs ints cfg.target_mz cfg.mz_tolerance).map Prod.fst).length := by
          simpa using (by simpa using hlt : _)
        exact getQ_mem _ _ hlt2
      · next hc =>
        have hne : (windowRegion mzs ints cfg.target_mz cfg.mz_tolerance).map Prod.snd ≠ [] := by
          simpa using hre
        have hlt := argmaxQ_lt_length _ hne
        have hlt2 : argmaxQ ((windowRegion mzs ints cfg.target_mz cfg.mz_tolerance).map Prod.snd) <
            ((windowRegion mzs ints cfg.target_mz cfg.mz_tolerance).map Prod.fst).length := by
          simpa using (by simpa using hlt : _)
        exact getQ_mem _ _ hlt2

/-- A concrete default-class configuration (its name and formula match
none of the special compound classes), used for concrete instances. -/
def cfgX : CompoundConfig :=
  { formula := "XF", compound_name := "Xname", target_mz := 100,
    mz_tolerance := 3 / 10, min_intensity_threshold := 1000,
    min_isotope_matches := 1, intensity_tolerance := 35 / 100,
    mz_tolerance_validation := 15 / 1000 }

theorem strXname_TOPSe : strContains ("Xname" : String) sTOPSe = false := by decide

theorem strXname_TOP : strContains ("Xname" : String) sTOP = false := by decide

theorem strXname_Oleic : strContains ("Xname" : String) sOleic = false := by decide

theorem strXF_fTOPSe : strContains ("XF" : String) fTOPSe = false := by decide

theorem strXF_fOleic : strContains ("XF" : String) fOleic = false := by decide

theorem cfgX_detect_floor : detectMinIntensity cfgX = 1000 := by
  simp [detectMinIntensity, cfgX, strXname_TOPSe, strXname_TOP, strXname_Oleic]

theorem cfgX_validate_floor : validateMinIntensity cfgX = 1000 := by
  simp [validateMinIntensity, cfgX, strXname_TOPSe, strXname_TOP, strXname_Oleic,
    strXF_fTOPSe, strXF_fOleic]

/-- A concrete single-peak reference pattern matching `cfgX`. -/
def refX : ReferenceData :=
  { mz := [100], intensity := [100], compound_name := "Xname", exact_mass := 100 }

/-- The candidate the sweep-time locator finds in the concrete spectrum
([100], [5000]) under `cfgX`. -/
def detX : DetectionResult :=
  { mz := 100, intensity := 5000, mz_error_ppm := 0, region_peaks := 1, target_mz := 100 }

theorem detectX_eval : detect_compound_in_spectrum [100] [5000] cfgX = some detX := by
  norm_num [detect_compound_in_spectrum, windowRegion, detectMinIntensity, cfgX, detX,
    strXname_TOPSe, strXname_TOP, strXname_Oleic, ppmError, argmaxQ, getQ]

/-- C3: every candidate returned by either peak locator (the plot-time
`find_true_peak_maximum` and the sweep-time `detect_compound_in_spectrum`)
has its m/z inside the closed tolerance window around the target, and when
no m/z value lies in that window both locators return absent. -/
theorem locator_window_correct (mzs ints : List ℚ) (t w : ℚ) (cfg : CompoundConfig) :
    (∀ r, find_true_peak_maximum mzs ints t w = some r →
       t - w ≤ r.mz ∧ r.mz ≤ t + w) ∧
    (∀ d, detect_compound_in_spectrum mzs ints cfg = some d →
       cfg.target_mz - cfg.mz_tolerance ≤ d.mz ∧ d.mz ≤ cfg.target_mz + cfg.mz_tolerance) ∧
    ((∀ x ∈ mzs, x < t - w ∨ t + w < x) →
       find_true_peak_maximum mzs ints t w = none) ∧
    ((∀ x ∈ mzs, x < cfg.target_mz - cfg.mz_tolerance ∨ cfg.target_mz + cfg.mz_tolerance < x) →
       detect_compound_in_spectrum mzs ints cfg = none) := by
  refine ⟨?_, ?_, ?_, ?_⟩
  · intro r hr
    have hm := find_true_peak_mem mzs ints t w r hr
    obtain ⟨p, hp, hpe⟩ := List.mem_map.mp hm
    have := windowRegion_mz_bounds mzs ints t w p hp
    rw [← hpe]
    exact this
  · intro d hd
    have hm := detect_mem mzs ints cfg d hd
    obtain ⟨p, hp, hpe⟩ := List.mem_map.mp hm
    have := windowRegion_mz_bounds mzs ints cfg.target_mz cfg.mz_tolerance p hp
    rw [← hpe]
    exact this
  · intro hout
    have hnil := windowRegion_eq_nil mzs ints t w hout
    simp [find_true_peak_maximum, hnil]
  · intro hout
    have hnil := windowRegion_eq_nil mzs ints cfg.target_mz cfg.mz_tolerance hout
    simp [detect_compound_in_spectrum, hnil]

/-- C3 witness: concrete instances exercising all four parts: an in-window
candidate for each locator and an off-target window for each. -/
theorem locator_window_correct_witness :
    ((2 : ℚ) - 1 ≤ 2 ∧ (2 : ℚ) ≤ 2 + 1) ∧
    (cfgX.target_mz - cfgX.mz_tolerance ≤ detX.mz ∧
      detX.mz ≤ cfgX.target_mz + cfgX.mz_tolerance) ∧
    find_true_peak_maximum [9] [5] 2 1 = none ∧
    detect_compound_in_spectrum [9] [5] cfgX = none := by
  refine ⟨?_, ?_, ?_, ?_⟩
  · exact (locator_window_correct [2] [5] 2 1 cfgX).1
      { mz := 2, intensity := 5, corrected := false }
      (by norm_num [find_true_peak_maximum, windowRegion, truePeakIndices, find_peaks,
        localMaxima, localMaximaAux, argmaxQ, getQ, npMax])
  · exact (locator_window_correct [100] [5000] 2 1 cfgX).2.1 detX detectX_eval
  · exact (locator_window_correct [9] [5] 2 1 cfgX).2.2.1
      (by intro x hx; right; simp at hx; norm_num [hx])
  · exact (locator_window_correct [9] [5] 2 1 cfgX).2.2.2
      (by intro x hx; left; simp at hx; norm_num [hx, cfgX])

/-- C4: whenever the tolerance window captures at least one sample, the
plot-time locator returns a candidate; and whenever the constrained
local-maxima search is skipped (window of at most 3 samples) or yields no
accepted maxima, the result is the plain window maximum marked
uncorrected. -/
theorem locate_fallback_total (mzs ints : List ℚ) (t w : ℚ)
    (h : windowRegion mzs ints t w ≠ []) :
    (find_true_peak_maximum mzs ints t w).isSome = true ∧
    (((windowRegion mzs ints t w).length ≤ 3 ∨
        truePeakIndices ((windowRegion mzs ints t w).map Prod.snd) = []) →
      find_true_peak_maximum mzs ints t w =
        some { mz := getQ ((windowRegion mzs ints t w).map Prod.fst)
                       (argmaxQ ((windowRegion mzs ints t w).map Prod.snd)),
               intensity := npMax ((windowRegion mzs ints t w).map Prod.snd),
               corrected := false }) := by
  constructor
  · simp only [find_true_peak_maximum, h, if_neg, if_false]
    split
    · simp
    · simp
  · intro hcase
    have hnc : ¬(3 < ((windowRegion mzs ints t w).map Prod.snd).length ∧
        truePeakIndices ((windowRegion mzs ints t w).map Prod.snd) ≠ []) := by
      rcases hcase with hlen | hemp
      · intro hc
        rw [List.length_map] at hc
        omega
      · intro hc
        exact hc.2 hemp
    simp only [find_true_peak_maximum, h, if_false, hnc, if_neg, npMax]

/-- C4 witness: a window of two samples (at most 3), where the result is
the uncorrected window maximum. -/
theorem locate_fallback_total_witness :
    (find_true_peak_maximum [1, 2, 9] [5, 7, 4] 2 1).isSome = true ∧
    find_true_peak_maximum [1, 2, 9] [5, 7, 4] 2 1 =
      some { mz := 2, intensity := 7, corrected := false } := by
  have hwin : windowRegion [1, 2, 9] [5, 7, 4] 2 1 = [(1, 5), (2, 7)] := by
    norm_num [windowRegion]
  have h := locate_fallback_total [1, 2, 9] [5, 7, 4] 2 1 (by rw [hwin]; simp)
  refine ⟨h.1, ?_⟩
  have h2 := h.2 (by rw [hwin]; left; norm_num)
  rw [h2, hwin]
  norm_num [argmaxQ, getQ, npMax]

/-- C5: a non-empty window whose maximum intensity is below the
compound's absolute floor is rejected outright by the sweep-time locator,
so such a spectrum contributes nothing to the sweep's accumulator and the
validator is never consulted for it. -/
theorem weak_window_rejected (mzs ints : List ℚ) (cfg : CompoundConfig)
    (h1 : windowRegion mzs ints cfg.target_mz cfg.mz_tolerance ≠ [])
    (h2 : npMax ((windowRegion mzs ints cfg.target_mz cfg.mz_tolerance).map Prod.snd) <
      detectMinIntensity cfg) :
    detect_compound_in_spectrum mzs ints cfg = none ∧
    ∀ (sc : Int) (rt : ℚ) (reference : Option ReferenceData),
      sweepDetections [{ scan := sc, rt := rt, mz_array := mzs, intensity_array := ints }]
        cfg reference = [] := by
  have hdet : detect_compound_in_spectrum mzs ints cfg = none := by
    simp only [detect_compound_in_spectrum, h1, if_false, if_neg]
    rw [if_pos]
    exact h2
  refine ⟨hdet, ?_⟩
  intro sc rt reference
  simp [sweepDetections, hdet]

/-- C5 witness: a single-sample window of intensity 400, below the
default floor of 1000. -/
theorem weak_window_rejected_witness :
    detect_compound_in_spectrum [100] [400] cfgX = none := by
  have hwin : windowRegion [100] [400] cfgX.target_mz cfgX.mz_tolerance = [(100, 400)] := by
    norm_num [windowRegion, cfgX]
  exact (weak_window_rejected [100] [400] cfgX
    (by rw [hwin]; simp)
    (by rw [hwin, cfgX_detect_floor]; norm_num [npMax, argmaxQ, getQ])).1

theorem validate_fst (det : DetectionResult) (cfg : CompoundConfig) (ref : ReferenceData) :
    (validate_against_reference det cfg (some ref)).1 =
      (decide (validateMinIntensity cfg ≤ det.intensity) &&
        decide (ppmError det.mz cfg.target_mz < 300)) := rfl

/-- C1: with a reference pattern present, the validator accepts exactly
when the candidate's intensity reaches the compound-class floor (1000 by
default, 2000 for the high-threshold classes matched on name/formula; no
other floor value occurs) and the mass error in ppm against the
configured target is strictly below 300; in particular intensity exactly
at the floor is accepted and validity flips across the 300 ppm
boundary. -/
theorem validate_valid_iff (det : DetectionResult) (cfg : CompoundConfig)
    (ref : ReferenceData) :
    ((validate_against_reference det cfg (some ref)).1 = true ↔
      validateMinIntensity cfg ≤ det.intensity ∧ ppmError det.mz cfg.target_mz < 300) ∧
    (validateMinIntensity cfg = 1000 ∨ validateMinIntensity cfg = 2000) := by
  constructor
  · rw [validate_fst]
    simp
  · unfold validateMinIntensity
    split
    · exact Or.inr rfl
    · split
      · exact Or.inr rfl
      · split
        · exact Or.inl rfl
        · exact Or.inl rfl

/-- C8: an absent reference pattern makes validation fail immediately for
any candidate, and the loader never stores a zero-peak pattern, so a
pattern parsed to zero peaks reaches the validator as absent and is
likewise always invalid. -/
theorem empty_pattern_invalid (det : DetectionResult) (cfg : CompoundConfig)
    (ints : List ℚ) (name : String) (em : ℚ) :
    (validate_against_reference det cfg none).1 = false ∧
    loadReference [] ints name em = none ∧
    (validate_against_reference det cfg (loadReference [] ints name em)).1 = false := by
  refine ⟨rfl, ?_, ?_⟩
  · simp [loadReference]
  · simp [loadReference]
    rfl

/-! C6: the confidence score.  The claim reads the main-peak walk as an
existential over the whole reference pattern; the code breaks out of the
walk at the first in-tolerance peak, whether or not that peak carried the
main-peak intensity, so a low-intensity isotope sitting within the
validation tolerance of the shifted candidate position masks the true
main peak. -/

/-- A two-peak reference pattern whose first peak (2% normalized
intensity) lies 0.01 m/z below the 100%-intensity main peak, inside the
0.015 validation tolerance. -/
def ref6 : ReferenceData :=
  { mz := [10099 / 100, 101], intensity := [2, 100], compound_name := "Yname",
    exact_mass := 101 }

/-- A default-class configuration targeting the `ref6` pattern. -/
def cfg6 : CompoundConfig :=
  { formula := "YF", compound_name := "Yname", target_mz := 101,
    mz_tolerance := 3 / 10, min_intensity_threshold := 1000,
    min_isotope_matches := 1, intensity_tolerance := 35 / 100,
    mz_tolerance_validation := 15 / 1000 }

/-- A candidate sitting exactly on the main reference peak of `ref6`. -/
def det6 : DetectionResult :=
  { mz := 101, intensity := 5000, mz_error_ppm := 0, region_peaks := 1,
    target_mz := 101 }

theorem strYname_TOPSe : strContains ("Yname" : String) sTOPSe = false := by decide

theorem strYname_TOP : strContains ("Yname" : String) sTOP = false := by decide

theorem strYname_Oleic : strContains ("Yname" : String) sOleic = false := by decide

theorem strYF_fTOPSe : strContains ("YF" : String) fTOPSe = false := by decide

theorem strYF_fOleic : strContains ("YF" : String) fOleic = false := by decide

theorem cfg6_validate_floor : validateMinIntensity cfg6 = 1000 := by
  simp [validateMinIntensity, cfg6, strYname_TOPSe, strYname_TOP, strYname_Oleic,
    strYF_fTOPSe, strYF_fOleic]

/-- C6 counterexample: for `det6` against `ref6` there IS a reference
peak with normalized intensity at least 1% whose shifted position is
within the validation tolerance of the candidate and whose normalized
intensity is at least 50% (the main peak itself), yet the validator
records no main-peak match and scores 0.5, because its walk stops at the
preceding 2% peak that also lies within tolerance. -/
theorem score_existential_counterexample :
    (∃ p ∈ ref6.mz.zip (ref6.intensity.map (fun y => y / npMax ref6.intensity)),
        (1 / 100 : ℚ) ≤ p.2 ∧
        |det6.mz - (p.1 + (det6.mz -
            getQ ref6.mz (argmaxQ (ref6.intensity.map (fun y => y / npMax ref6.intensity)))))| ≤
          cfg6.mz_tolerance_validation ∧
        (1 / 2 : ℚ) ≤ p.2) ∧
    (∃ v, (validate_against_reference det6 cfg6 (some ref6)).2 = some v ∧
        v.main_peak_match = false ∧ v.validation_score = 1 / 2) := by
  constructor
  · refine ⟨(101, 1), ?_, ?_, ?_, ?_⟩
    · norm_num [ref6, npMax, argmaxQ, getQ]
    · norm_num
    · norm_num [ref6, det6, cfg6, npMax, argmaxQ, getQ]
    · norm_num
  · have habs : |(1 : ℚ) / 100| = 1 / 100 := abs_of_nonneg (by norm_num)
    refine ⟨{ is_valid := true, match_count := 0, required_matches := 1,
              validation_score := 1 / 2, main_peak_intensity := 5000,
              mass_error_ppm := 0, mass_accuracy_ok := true, main_peak_match := false },
            ?_, rfl, rfl⟩
    norm_num [validate_against_reference, validateMinIntensity, mainPeakLoop,
      ref6, det6, cfg6, npMax, argmaxQ, getQ, ppmError, habs,
      strYname_TOPSe, strYname_TOP, strYname_Oleic, strYF_fTOPSe, strYF_fOleic]

/-- The amended description of the confidence score: among the reference
peaks with normalized intensity at least 1%, find the FIRST whose shifted
position lies within the validation tolerance of the candidate; the score
is 1.0 exactly when that first hit itself carries at least 50% normalized
intensity, and 0.5 otherwise (also when there is no hit at all). -/
def firstTolerantPeakIsMain (det : DetectionResult) (cfg : CompoundConfig)
    (ref : ReferenceData) : Bool :=
  match (ref.mz.zip (ref.intensity.map (fun y => y / npMax ref.intensity))).find?
      (fun p => decide ((1 / 100 : ℚ) ≤ p.2) &&
        decide (|det.mz - (p.1 + (det.mz -
          getQ ref.mz (argmaxQ (ref.intensity.map (fun y => y / npMax ref.intensity)))))| ≤
          cfg.mz_tolerance_validation)) with
  | some p => decide ((1 / 2 : ℚ) ≤ p.2)
  | none => false

theorem mainPeakLoop_fst_eq_find (main shift tol : ℚ) (l : List (ℚ × ℚ)) :
    (mainPeakLoop main shift tol l).1 =
      (match l.find? (fun p => decide ((1 / 100 : ℚ) ≤ p.2) &&
          decide (|main - (p.1 + shift)| ≤ tol)) with
       | some p => decide ((1 / 2 : ℚ) ≤ p.2)
       | none => false) := by
  induction l with
  | nil => rfl
  | cons a rest ih =>
    obtain ⟨rmz, rint⟩ := a
    by_cases h1 : (1 / 100 : ℚ) ≤ rint
    · by_cases h2 : |main - (rmz + shift)| ≤ tol
      · have e1 : decide ((1 / 100 : ℚ) ≤ rint) = true := decide_eq_true h1
        have e2 : decide (|main - (rmz + shift)| ≤ tol) = true := decide_eq_true h2
        simp only [mainPeakLoop, List.find?_cons, e1, e2, Bool.true_and, if_pos h1,
          if_pos h2]
        by_cases h3 : (1 / 2 : ℚ) ≤ rint
        · rw [if_pos h3, decide_eq_true h3]
        · rw [if_neg h3, decide_eq_false h3]
      · have e2 : decide (|main - (rmz + shift)| ≤ tol) = false := decide_eq_false h2
        simp only [mainPeakLoop, List.find?_cons, e2, Bool.and_false, if_pos h1,
          if_neg h2]
        exact ih
    · have e1 : decide ((1 / 100 : ℚ) ≤ rint) = false := decide_eq_false h1
      simp only [mainPeakLoop, List.find?_cons, e1, Bool.false_and, if_neg h1]
      exact ih

/-- C6 amended: the validator always returns a record; its score is 1.0
exactly when the first in-tolerance reference peak (among those with at
least 1% normalized intensity) itself carries at least 50% normalized
intensity, and 0.5 otherwise; no other score value occurs. -/
theorem validation_score_characterization (det : DetectionResult)
    (cfg : CompoundConfig) (ref : ReferenceData) :
    ∃ v, (validate_against_reference det cfg (some ref)).2 = some v ∧
      v.main_peak_match = firstTolerantPeakIsMain det cfg ref ∧
      v.validation_score = (if firstTolerantPeakIsMain det cfg ref then 1 else 1 / 2) ∧
      (v.validation_score = 1 ∨ v.validation_score = 1 / 2) := by
  refine ⟨_, rfl, ?_, ?_, ?_⟩
  · show (mainPeakLoop det.mz
        (det.mz - getQ ref.mz (argmaxQ (ref.intensity.map (fun y => y / npMax ref.intensity))))
        cfg.mz_tolerance_validation
        (ref.mz.zip (ref.intensity.map (fun y => y / npMax ref.intensity)))).1 =
      firstTolerantPeakIsMain det cfg ref
    rw [mainPeakLoop_fst_eq_find]
    rfl
  · show (if (mainPeakLoop det.mz
        (det.mz - getQ ref.mz (argmaxQ (ref.intensity.map (fun y => y / npMax ref.intensity))))
        cfg.mz_tolerance_validation
        (ref.mz.zip (ref.intensity.map (fun y => y / npMax ref.intensity)))).1
        then (1 : ℚ) else 1 / 2) =
      (if firstTolerantPeakIsMain det cfg ref then 1 else 1 / 2)
    rw [mainPeakLoop_fst_eq_find]
    rfl
  · by_cases hb : (mainPeakLoop det.mz
        (det.mz - getQ ref.mz (argmaxQ (ref.intensity.map (fun y => y / npMax ref.intensity))))
        cfg.mz_tolerance_validation
        (ref.mz.zip (ref.intensity.map (fun y => y / npMax ref.intensity)))).1 = true
    · left
      show (if (mainPeakLoop det.mz
          (det.mz - getQ ref.mz (argmaxQ (ref.intensity.map (fun y => y / npMax ref.intensity))))
          cfg.mz_tolerance_validation
          (ref.mz.zip (ref.intensity.map (fun y => y / npMax ref.intensity)))).1
          then (1 : ℚ) else 1 / 2) = 1
      rw [hb]
      rfl
    · right
      show (if (mainPeakLoop det.mz
          (det.mz - getQ ref.mz (argmaxQ (ref.intensity.map (fun y => y / npMax ref.intensity))))
          cfg.mz_tolerance_validation
          (ref.mz.zip (ref.intensity.map (fun y => y / npMax ref.intensity)))).1
          then (1 : ℚ) else 1 / 2) = 1 / 2
      rw [Bool.not_eq_true] at hb
      rw [hb]
      rfl

theorem analyze_eq_of_cons (specs : List SpectrumRec) (cfg : CompoundConfig)
    (reference : Option ReferenceData) (d : AcceptedDetection)
    (tail : List AcceptedDetection)
    (hall : sweepDetections (collectMS1 specs) cfg reference = d :: tail) :
    analyze_sample_for_compound specs cfg reference =
      some { optimal_detection :=
               (d :: tail).getD (argmaxQ ((d :: tail).map (fun a => a.det.intensity))) d
             all_detections := d :: tail
             detection_count := (d :: tail).length } := by
  simp only [analyze_sample_for_compound, hall]

/-- C2: after the sweep for one compound, a non-empty accumulator yields
a result whose detection list is the accumulator, whose count is its
length, and whose optimal detection is the first entry of maximal
intensity (it dominates every accepted candidate, and every earlier entry
is strictly smaller); an empty accumulator yields absence, not an
error. -/
theorem sweep_optimal_selection (specs : List SpectrumRec) (cfg : CompoundConfig)
    (reference : Option ReferenceData) :
    (sweepDetections (collectMS1 specs) cfg reference = [] →
       analyze_sample_for_compound specs cfg reference = none) ∧
    (∀ r, analyze_sample_for_compound specs cfg reference = some r →
       r.all_detections = sweepDetections (collectMS1 specs) cfg reference ∧
       r.detection_count = (sweepDetections (collectMS1 specs) cfg reference).length ∧
       (∀ a ∈ sweepDetections (collectMS1 specs) cfg reference,
          a.det.intensity ≤ r.optimal_detection.det.intensity) ∧
       (∃ i, ∃ hi : i < (sweepDetections (collectMS1 specs) cfg reference).length,
          (sweepDetections (collectMS1 specs) cfg reference).get ⟨i, hi⟩ =
            r.optimal_detection ∧
          ∀ j, ∀ hj : j < (sweepDetections (collectMS1 specs) cfg reference).length,
            j < i →
            ((sweepDetections (collectMS1 specs) cfg reference).get ⟨j, hj⟩).det.intensity <
              r.optimal_detection.det.intensity)) := by
  constructor
  · intro hnil
    simp [analyze_sample_for_compound, hnil]
  · intro r hr
    cases hall : sweepDetections (collectMS1 specs) cfg reference with
    | nil =>
      simp [analyze_sample_for_compound, hall] at hr
    | cons d tail =>
      have heq := analyze_eq_of_cons specs cfg reference d tail hall
      rw [heq] at hr
      have hrr := Option.some_inj.mp hr
      set all := d :: tail with hallc
      set ks := all.map (fun a => a.det.intensity) with hks
      have hkne : ks ≠ [] := by simp [hks, hallc]
      have hilt : argmaxQ ks < ks.length := argmaxQ_lt_length ks hkne
      have hilt2 : argmaxQ ks < all.length := by
        have : ks.length = all.length := by simp [hks]
        omega
      have hopt : r.optimal_detection = all.get ⟨argmaxQ ks, hilt2⟩ := by
        rw [← hrr]
        exact getD_eq_get all d (argmaxQ ks) hilt2
      have hoptval : r.optimal_detection.det.intensity = getQ ks (argmaxQ ks) := by
        rw [hopt, ← getD_eq_get all d (argmaxQ ks) hilt2]
        exact (getD_map_of_lt (fun a => a.det.intensity) all (argmaxQ ks) hilt2 0 d).symm
      refine ⟨?_, ?_, ?_, ?_⟩
      · rw [← hrr]
      · rw [← hrr]
      · intro a ha
        have hmem : a.det.intensity ∈ ks := by
          rw [hks]
          exact List.mem_map_of_mem (fun a => a.det.intensity) ha
        rw [hoptval]
        exact mem_le_npMax ks _ hmem
      · refine ⟨argmaxQ ks, hilt2, hopt.symm, ?_⟩
        intro j hj hji
        have hjk : j < ks.length := by
          have : ks.length = all.length := by simp [hks]
          omega
        have hlt := getQ_lt_of_lt_argmaxQ ks j hji
        have hjval : (all.get ⟨j, hj⟩).det.intensity = getQ ks j := by
          rw [← getD_eq_get all d j hj]
          exact (getD_map_of_lt (fun a => a.det.intensity) all j hj 0 d).symm
        rw [hjval, hoptval]
        exact hlt

/-- A concrete admissible spectrum carrying a detectable peak for
`cfgX`. -/
def spec0 : SpectrumRec :=
  { id := .int 1, ms_level := 1, rt := 0, mz_array := [100], intensity_array := [5000] }

/-- The validation record produced for `detX` against `refX`. -/
def vr0 : ValidationResult :=
  { is_valid := true, match_count := 1, required_matches := 1, validation_score := 1,
    main_peak_intensity := 5000, mass_error_ppm := 0, mass_accuracy_ok := true,
    main_peak_match := true }

/-- The accepted detection accumulated from `spec0`. -/
def acc0 : AcceptedDetection := { det := detX, scan := 1, rt := 0, validation := vr0 }

/-- The compound result reported for the singleton sweep over `spec0`. -/
def res0 : CompoundResult :=
  { optimal_detection := acc0, all_detections := [acc0], detection_count := 1 }

theorem sweep0_eval :
    sweepDetections (collectMS1 [spec0]) cfgX (some refX) = [acc0] := by
  norm_num [sweepDetections, collectMS1, spec0, extract_scan_number,
    List.filterMap_cons, detect_compound_in_spectrum, validate_against_reference,
    windowRegion, detectMinIntensity, validateMinIntensity, cfgX, refX, acc0, vr0, detX,
    strXname_TOPSe, strXname_TOP, strXname_Oleic, strXF_fTOPSe, strXF_fOleic,
    mainPeakLoop, ppmError, argmaxQ, getQ, npMax]

theorem analyze0_eval :
    analyze_sample_for_compound [spec0] cfgX (some refX) = some res0 := by
  have h := analyze_eq_of_cons [spec0] cfgX (some refX) acc0 [] sweep0_eval
  rw [h]
  norm_num [res0, argmaxQ, getQ]

/-- C2 witness: the empty sweep reports absence, and on a singleton sweep
the theorem's conclusions hold at the evaluated concrete result. -/
theorem sweep_optimal_selection_witness :
    analyze_sample_for_compound [] cfgX none = none ∧
    res0.all_detections = sweepDetections (collectMS1 [spec0]) cfgX (some refX) ∧
    res0.detection_count = (sweepDetections (collectMS1 [spec0]) cfgX (some refX)).length ∧
    (∀ a ∈ sweepDetections (collectMS1 [spec0]) cfgX (some refX),
       a.det.intensity ≤ res0.optimal_detection.det.intensity) := by
  refine ⟨(sweep_optimal_selection [] cfgX none).1 rfl, ?_⟩
  have h := (sweep_optimal_selection [spec0] cfgX (some refX)).2 res0 analyze0_eval
  exact ⟨h.1, h.2.1, h.2.2.1⟩

theorem validate_snd_is_valid (det : DetectionResult) (cfg : CompoundConfig)
    (reference : Option ReferenceData) (b : Bool) (v : ValidationResult)
    (h : validate_against_reference det cfg reference = (b, some v)) :
    v.is_valid = b := by
  cases reference with
  | none =>
    have := congrArg Prod.snd h
    simp [validate_against_reference] at this
  | some ref =>
    have h1 := congrArg Prod.fst h
    have h2 := congrArg Prod.snd h
    simp only [validate_against_reference] at h1 h2
    have hv := Option.some_inj.mp h2
    rw [← hv]
    exact h1

/-- C7: the sweep's accumulator contains only candidates the validator
accepted: every accumulated entry validates to true (and carries
`is_valid = true`), and every entry of a reported result's detection list
validates to true, so a rejected candidate never becomes part of a
SampleResult. -/
theorem rejected_never_in_result (specs : List SpectrumRec) (cfg : CompoundConfig)
    (reference : Option ReferenceData) :
    (∀ a ∈ sweepDetections (collectMS1 specs) cfg reference,
       (validate_against_reference a.det cfg reference).1 = true ∧
       a.validation.is_valid = true) ∧
    (∀ r, analyze_sample_for_compound specs cfg reference = some r →
       ∀ a ∈ r.all_detections,
         (validate_against_reference a.det cfg reference).1 = true) := by
  have main : ∀ a ∈ sweepDetections (collectMS1 specs) cfg reference,
      (validate_against_reference a.det cfg reference).1 = true ∧
      a.validation.is_valid = true := by
    intro a ha
    obtain ⟨sp, _, hf⟩ := List.mem_filterMap.mp ha
    cases hdet : detect_compound_in_spectrum sp.mz_array sp.intensity_array cfg with
    | none => rw [hdet] at hf; cases hf
    | some detection =>
      rw [hdet] at hf
      rcases hval : validate_against_reference detection cfg reference with ⟨b, ov⟩
      simp only [hval] at hf
      cases b with
      | false => cases ov <;> simp at hf
      | true =>
        cases ov with
        | none => simp at hf
        | some v =>
          have ha2 : AcceptedDetection.mk detection sp.scan sp.rt v = a :=
            Option.some_inj.mp hf
          have hadet : a.det = detection := by rw [← ha2]
          have haval : a.validation = v := by rw [← ha2]
          constructor
          · rw [hadet, hval]
          · rw [haval]
            exact validate_snd_is_valid detection cfg reference true v hval
  refine ⟨main, ?_⟩
  intro r hr a ha
  cases hall : sweepDetections (collectMS1 specs) cfg reference with
  | nil => simp [analyze_sample_for_compound, hall] at hr
  | cons d tail =>
    have heq := analyze_eq_of_cons specs cfg reference d tail hall
    rw [heq] at hr
    have hrr := Option.some_inj.mp hr
    have hal : r.all_detections = d :: tail := by rw [← hrr]
    rw [hal] at ha
    rw [← hall] at ha
    exact (main a ha).1

/-- C7 witness: the concrete accumulated entry `acc0` validates to
true. -/
theorem rejected_never_in_result_witness :
    (validate_against_reference acc0.det cfgX (some refX)).1 = true ∧
    acc0.validation.is_valid = true :=
  (rejected_never_in_result [spec0] cfgX (some refX)).1 acc0
    (by rw [sweep0_eval]; exact List.mem_singleton_self acc0)

theorem detect_intensity_ge_floor (mzs ints : List ℚ) (cfg : CompoundConfig)
    (d : DetectionResult) (h : detect_compound_in_spectrum mzs ints cfg = some d) :
    detectMinIntensity cfg ≤ d.intensity := by
  simp only [detect_compound_in_spectrum] at h
  split at h
  · cases h
  · next hre =>
    split at h
    · cases h
    · next hfloor =>
      have hr := Option.some_inj.mp h
      rw [← hr]
      show detectMinIntensity cfg ≤
        (if 3 < ((windowRegion mzs ints cfg.target_mz cfg.mz_tolerance).map Prod.snd).length ∧
            find_peaks ((windowRegion mzs ints cfg.target_mz cfg.mz_tolerance).map Prod.snd)
              (some (detectMinIntensity cfg)) (some 1) none ≠ [] then
          (getQ ((windowRegion mzs ints cfg.target_mz cfg.mz_tolerance).map Prod.fst)
            (bestOf ((windowRegion mzs ints cfg.target_mz cfg.mz_tolerance).map Prod.snd)
              (find_peaks ((windowRegion mzs ints cfg.target_mz cfg.mz_tolerance).map Prod.snd)
                (some (detectMinIntensity cfg)) (some 1) none)),
           getQ ((windowRegion mzs ints cfg.target_mz cfg.mz_tolerance).map Prod.snd)
            (bestOf ((windowRegion mzs ints cfg.target_mz cfg.mz_tolerance).map Prod.snd)
              (find_peaks ((windowRegion mzs ints cfg.target_mz cfg.mz_tolerance).map Prod.snd)
                (some (detectMinIntensity cfg)) (some 1) none)))
         else
          (getQ ((windowRegion mzs ints cfg.target_mz cfg.mz_tolerance).map Prod.fst)
            (argmaxQ ((windowRegion mzs ints cfg.target_mz cfg.mz_tolerance).map Prod.snd)),
           getQ ((windowRegion mzs ints cfg.target_mz cfg.mz_tolerance).map Prod.snd)
            (argmaxQ ((windowRegion mzs ints cfg.target_mz cfg.mz_tolerance).map Prod.snd)))).2
      split
      · next hc =>
        exact find_peaks_height _ _ _ _ _ (bestOf_mem _ _ hc.2)
      · next hc =>
        exact not_lt.mp hfloor

/-- The high-threshold-by-formula configuration of the C9 counterexample:
its display name matches no special class, but its formula matches the
TOPSe formula fragment. -/
def cfg9 : CompoundConfig :=
  { formula := "C24H52PSe", compound_name := "Unknown", target_mz := 100,
    mz_tolerance := 3 / 10, min_intensity_threshold := 1000,
    min_isotope_matches := 1, intensity_tolerance := 35 / 100,
    mz_tolerance_validation := 15 / 1000 }

/-- The candidate the sweep-time locator returns for ([100], [1500])
under `cfg9`. -/
def det9 : DetectionResult :=
  { mz := 100, intensity := 1500, mz_error_ppm := 0, region_peaks := 1,
    target_mz := 100 }

/-- A single-peak reference pattern for `cfg9`. -/
def ref9 : ReferenceData :=
  { mz := [100], intensity := [100], compound_name := "Unknown", exact_mass := 100 }

theorem strUnknown_TOPSe : strContains ("Unknown" : String) sTOPSe = false := by decide

theorem strUnknown_TOP : strContains ("Unknown" : String) sTOP = false := by decide

theorem strUnknown_Oleic : strContains ("Unknown" : String) sOleic = false := by decide

theorem strFormula9_fTOPSe : strContains ("C24H52PSe" : String) fTOPSe = true := by decide

/-- C9 counterexample: the locator's floor is derived from the display
name only, while the validator also matches the formula; for a compound
named outside the special classes but whose formula contains the TOPSe
fragment, the sweep-time locator returns a candidate of intensity 1500
(its floor being 1000) whose mass error is 0 ppm, yet the validator
rejects it because its own floor is 2000 — so validity is NOT decided
solely by the 300-ppm test. -/
theorem sweep_candidate_below_validator_floor :
    detect_compound_in_spectrum [100] [1500] cfg9 = some det9 ∧
    ppmError det9.mz cfg9.target_mz < 300 ∧
    (validate_against_reference det9 cfg9 (some ref9)).1 = false := by
  refine ⟨?_, ?_, ?_⟩
  · norm_num [detect_compound_in_spectrum, windowRegion, detectMinIntensity,
      cfg9, det9, strUnknown_TOPSe, strUnknown_TOP, strUnknown_Oleic,
      ppmError, argmaxQ, getQ]
  · norm_num [ppmError, det9, cfg9, sub_self, abs_zero]
  · rw [validate_fst]
    have hfloor : validateMinIntensity cfg9 = 2000 := by
      simp [validateMinIntensity, cfg9, strFormula9_fTOPSe]
    rw [hfloor]
    norm_num [det9]

/-- C9 amended: every sweep-produced candidate does reach the locator's
name-derived floor; and whenever the validator's name-and-formula floor
does not exceed the locator's floor (in particular whenever the two
substring rules agree on the compound's class), the validator's intensity
criterion is automatically satisfied for sweep-produced candidates, and
validity is decided solely by the 300-ppm mass-accuracy test. -/
theorem sweep_candidate_floor_amended (mzs ints : List ℚ) (cfg : CompoundConfig)
    (d : DetectionResult) (ref : ReferenceData) :
    (detect_compound_in_spectrum mzs ints cfg = some d →
       detectMinIntensity cfg ≤ d.intensity) ∧
    (detect_compound_in_spectrum mzs ints cfg = some d →
       validateMinIntensity cfg ≤ detectMinIntensity cfg →
       ((validate_against_reference d cfg (some ref)).1 = true ↔
         ppmError d.mz cfg.target_mz < 300)) := by
  constructor
  · exact detect_intensity_ge_floor mzs ints cfg d
  · intro h hle
    rw [validate_fst]
    simp only [Bool.and_eq_true, decide_eq_true_eq]
    constructor
    · intro hp
      exact hp.2
    · intro hp
      exact ⟨le_trans hle (detect_intensity_ge_floor mzs ints cfg d h), hp⟩

/-- C9 witness: the concrete default-class candidate `detX` reaches the
floor, and with agreeing floors its validity reduces to the ppm test. -/
theorem sweep_candidate_floor_amended_witness :
    detectMinIntensity cfgX ≤ detX.intensity ∧
    ((validate_against_reference detX cfgX (some refX)).1 = true ↔
      ppmError detX.mz cfgX.target_mz < 300) := by
  constructor
  · exact (sweep_candidate_floor_amended [100] [5000] cfgX detX refX).1 detectX_eval
  · exact (sweep_candidate_floor_amended [100] [5000] cfgX detX refX).2 detectX_eval
      (by rw [cfgX_detect_floor, cfgX_validate_floor])

/-- C10: every spectrum the sweep examines carries a strictly positive
extracted scan number; a spectrum whose identifier extraction yields 0 is
silently dropped from the collected sequence, and prepending such a
spectrum changes neither the collected sequence nor any compound's
analysis result, so it can never contribute a detection. -/
theorem unparsable_scan_excluded (specs : List SpectrumRec) (sp : SpectrumRec) :
    (∀ m ∈ collectMS1 specs, 0 < m.scan) ∧
    (extract_scan_number sp.id = 0 →
       collectMS1 (sp :: specs) = collectMS1 specs ∧
       ∀ (cfg : CompoundConfig) (reference : Option ReferenceData),
         analyze_sample_for_compound (sp :: specs) cfg reference =
           analyze_sample_for_compound specs cfg reference) := by
  constructor
  · intro m hm
    obtain ⟨s, _, hf⟩ := List.mem_filterMap.mp hm
    split at hf
    · next hcond =>
      have hms := Option.some_inj.mp hf
      rw [← hms]
      exact hcond.2
    · cases hf
  · intro h0
    have hc : collectMS1 (sp :: specs) = collectMS1 specs := by
      simp only [collectMS1, List.filterMap_cons, h0]
      norm_num
    refine ⟨hc, ?_⟩
    intro cfg reference
    simp only [analyze_sample_for_compound, hc]

/-- A spectrum labelled by a string identifier that carries no scan
marker and is not a digit string; its scan number extracts to 0. -/
def spBad : SpectrumRec :=
  { id := .str "frame 7", ms_level := 1, rt := 0,
    mz_array := [100], intensity_array := [5000] }

/-- C10 witness: the concrete unparsable-id spectrum is dropped and
changes no analysis result. -/
theorem unparsable_scan_excluded_witness :
    collectMS1 [spBad] = collectMS1 [] ∧
    ∀ (cfg : CompoundConfig) (reference : Option ReferenceData),
      analyze_sample_for_compound [spBad] cfg reference =
        analyze_sample_for_compound [] cfg reference :=
  (unparsable_scan_excluded [] spBad).2 (by decide)

end DartMS
